import Mathlib

/-!
Verification of the `hrms` deployment tooling against its specification.

The repository holds three Python CLI variants
(`easy-install-latest.py` = Variant A, `easy-install-original-latest.py` =
Variant B, `easy-install.py` = Variant C) plus an HRMS domain test.  Python
strings are embedded as lists of Unicode code points (`List Nat`); files are
lists of lines; external randomness (OS entropy, `secrets` module) is passed
in explicitly as data.
-/

namespace HRMS

/-- A Python string, embedded as its list of code points. -/
abbrev Str := List Nat

/-- A line of a text file. -/
abbrev Line := List Nat

/-- Convert a Lean string literal to its code-point list (for writing the
constants that appear in the Python source). -/
def str2list (s : String) : Str := s.data.map Char.toNat

/-! ### Python `str.strip` (default whitespace) -/

/-- Python's default `str.strip` whitespace set (space, tab, LF, CR, VT, FF). -/
def isWS (c : Nat) : Bool := c = 32 || c = 9 || c = 10 || c = 13 || c = 11 || c = 12

/-- Drop leading whitespace (left part of Python `str.strip`). -/
def stripLeft (l : Str) : Str := l.dropWhile isWS

/-- Drop trailing whitespace (right part of Python `str.strip`). -/
def stripRight (l : Str) : Str := (l.reverse.dropWhile isWS).reverse

/-- Python `str.strip()` with no argument. -/
def strip (l : Str) : Str := stripRight (stripLeft l)

/-- Python `s.split(sep, 1)` restricted to a one-character separator:
split at the first occurrence, `none` when the separator does not occur. -/
def splitOnce (sep : Nat) : Str → Option (Str × Str)
  | [] => none
  | c :: rest =>
    if c = sep then some ([], rest)
    else (splitOnce sep rest).map (fun p => (c :: p.1, p.2))

/-! ### Variant A: project-name derivation (`deploy`, easy-install-latest.py
lines 359-364)

`re.sub(r'[^a-zA-Z0-9_.-]', '', args.sitename).replace('.', '_')`, then
`args.project_name or sanitized_sitename`. -/

/-- Character class `[a-zA-Z0-9_.-]` of the Variant A sanitising regex. -/
def allowedChar (c : Nat) : Bool :=
  (97 ≤ c && c ≤ 122) || (65 ≤ c && c ≤ 90) || (48 ≤ c && c ≤ 57)
    || c = 95 || c = 46 || c = 45

/-- `re.sub(r'[^a-zA-Z0-9_.-]', '', s)`: delete every character outside the
class. -/
def reSubDisallowed : Str → Str
  | [] => []
  | c :: rest => if allowedChar c then c :: reSubDisallowed rest else reSubDisallowed rest

/-- `s.replace('.', '_')`. -/
def replaceDots : Str → Str
  | [] => []
  | c :: rest => (if c = 46 then 95 else c) :: replaceDots rest

/-- `sanitized_sitename` of Variant A `deploy`. -/
def sanitizeSitename (s : Str) : Str := replaceDots (reSubDisallowed s)

/-- `project_name = args.project_name or sanitized_sitename` (Python `or`:
an absent or empty explicit name falls back to the derived one). -/
def deployProjectName (explicit : Option Str) (sitename : Str) : Str :=
  match explicit with
  | some p => if p = [] then sanitizeSitename sitename else p
  | none => sanitizeSitename sitename

/-- The spec's wording of the derivation, stated independently: delete every
character outside `[A-Za-z0-9_.-]`, then replace every `.` with `_`. -/
def specDerivedName (s : Str) : Str :=
  (s.filter allowedChar).map (fun c => if c = 46 then 95 else c)

theorem reSubDisallowed_eq_filter (s : Str) : reSubDisallowed s = s.filter allowedChar := by
  induction s with
  | nil => rfl
  | cons c rest ih =>
    simp only [reSubDisallowed, List.filter_cons]
    by_cases h : allowedChar c = true
    · simp [h, ih]
    · simp [h, ih]

theorem replaceDots_eq_map (s : Str) :
    replaceDots s = s.map (fun c => if c = 46 then 95 else c) := by
  induction s with
  | nil => rfl
  | cons c rest ih => simp [replaceDots, ih]

/-- C8: for every sitename, the derived project name (when no explicit
project name is supplied) deletes every character outside `[A-Za-z0-9_.-]`
and then replaces `.` with `_`; `demo.example.com ↦ demo_example_com` and
`my site! ↦ mysite`. -/
theorem C8_project_name_derivation :
    (∀ s : Str, deployProjectName none s = specDerivedName s)
    ∧ deployProjectName none (str2list "demo.example.com") = str2list "demo_example_com"
    ∧ deployProjectName none (str2list "my site!") = str2list "mysite" := by
  refine ⟨fun s => ?_, by decide, by decide⟩
  simp [deployProjectName, sanitizeSitename, specDerivedName,
    reSubDisallowed_eq_filter, replaceDots_eq_map]

/-! ### Association-list model of a Python `dict`

The parsers below build a `dict` by iterating lines left to right and
assigning `d[key] = value`.  We model the dict by the list of `(key, value)`
assignments in iteration order; a lookup returns the value of the *last*
assignment with that key (exactly the final state of the Python dict), and
key membership (`key in d`) is membership among the assigned keys. -/

abbrev EnvMap := List (Str × Str)

/-- First match in an assignment list. -/
def assocGet : EnvMap → Str → Option Str
  | [], _ => none
  | (k', v') :: rest, k => if k' = k then some v' else assocGet rest k

/-- Python dict lookup: the value of the last assignment wins. -/
def dictGet (m : EnvMap) (k : Str) : Option Str := assocGet m.reverse k

/-- Python `key in d` over the assignment list. -/
def hasKey (m : EnvMap) (k : Str) : Bool := (m.map Prod.fst).contains k

/-! ### Variant A: `get_passwords` (easy-install-latest.py lines 299-351) -/

/-- Outcome of classifying one line of the passwords file, mirroring the body
of the read loop: blank and `#`-comment lines are skipped, a line that
`split('=', 1)` cannot split raises `ValueError` and is only warned about,
otherwise `passwords[key.strip()] = value.strip()`. -/
inductive ParsedLine
  | skip
  | malformed
  | entry (k v : Str)
deriving DecidableEq

def classifySecretLine (line : Line) : ParsedLine :=
  let l := strip line
  if l = [] then .skip
  else if l.head? = some 35 then .skip
  else
    match splitOnce 61 l with
    | some (k, v) => .entry (strip k) (strip v)
    | none => .malformed

def entryOf (line : Line) : Option (Str × Str) :=
  match classifySecretLine line with
  | .entry k v => some (k, v)
  | _ => none

/-- The assignments the read loop performs, in order. -/
def parseEntries (lines : List Line) : EnvMap := lines.filterMap entryOf

def isMalformed (line : Line) : Bool :=
  match classifySecretLine line with
  | .malformed => true
  | _ => false

/-- The lines the read loop warns about ("Skipping malformed line"). -/
def malformedOf (lines : List Line) : List Line := lines.filter isMalformed

def ADMIN_PASSWORD : Str := str2list "ADMIN_PASSWORD"
def DB_ROOT_PASSWORD : Str := str2list "DB_ROOT_PASSWORD"

/-- `required_keys = ["ADMIN_PASSWORD", "DB_ROOT_PASSWORD"]`, and
`missing_keys = [key for key in required_keys if key not in passwords]`. -/
def requiredMissing (m : EnvMap) : List Str :=
  [ADMIN_PASSWORD, DB_ROOT_PASSWORD].filter (fun k => !(hasKey m k))

/-- Result of `get_passwords`: either the parsed password dict together with
the warned-about lines, or a fatal `sys.exit(1)` naming the missing keys. -/
inductive SecretsResult
  | ok (passwords : EnvMap) (warned : List Line)
  | fatal (missing : List Str)
deriving DecidableEq

/-- Process exit code implied by a `SecretsResult` (`sys.exit(1)` on fatal). -/
def SecretsResult.exitCode : SecretsResult → Nat
  | .ok _ _ => 0
  | .fatal _ => 1

/-- The read-existing-file branch of `get_passwords`, including the final
required-keys check. -/
def readPasswordsFile (lines : List Line) : SecretsResult :=
  let m := parseEntries lines
  let missing := requiredMissing m
  if missing = [] then .ok m (malformedOf lines) else .fatal missing

/-- File content written by the generate branch of `get_passwords`
(two header comments, the blank line produced by the trailing `\n\n`, then
the two `KEY=value` lines). -/
def passwordsFileContent (adminPass dbPass : Str) : List Line :=
  [ str2list "# This file contains the auto-generated passwords for your deployment.",
    str2list "# Keep this file safe. It will be re-used on subsequent deployments.",
    [],
    str2list "ADMIN_PASSWORD=" ++ adminPass,
    str2list "DB_ROOT_PASSWORD=" ++ dbPass ]

/-- `get_passwords(project_name)`, as a function of the current content of
`<project>-passwords.txt` (`none` = file absent) and of the two fresh
passwords the `generate_pass()` calls would produce.  Returns the result and
the file content afterwards. -/
def getPasswordsA (existing : Option (List Line)) (freshAdmin freshDb : Str) :
    SecretsResult × List Line :=
  match existing with
  | none =>
    -- generate branch: writes the file, then the required-keys check passes
    -- on the freshly built dict {ADMIN_PASSWORD: .., DB_ROOT_PASSWORD: ..}.
    (.ok [(ADMIN_PASSWORD, freshAdmin), (DB_ROOT_PASSWORD, freshDb)] [],
      passwordsFileContent freshAdmin freshDb)
  | some lines => (readPasswordsFile lines, lines)

/-! ### Lemmas about `strip` and `splitOnce` -/

theorem length_stripLeft_le (l : Str) : (stripLeft l).length ≤ l.length :=
  (List.dropWhile_suffix isWS).sublist.length_le

theorem length_stripRight_le (l : Str) : (stripRight l).length ≤ l.length := by
  simpa [stripRight] using (List.dropWhile_suffix (l := l.reverse) isWS).sublist.length_le

theorem strip_parts {l : Str} (h : strip l = l) : stripLeft l = l ∧ stripRight l = l := by
  have h1 : l.length ≤ (stripLeft l).length := by
    calc l.length = (strip l).length := by rw [h]
    _ = (stripRight (stripLeft l)).length := rfl
    _ ≤ (stripLeft l).length := length_stripRight_le _
  have h2 : stripLeft l = l :=
    (List.dropWhile_suffix isWS).eq_of_length (le_antisymm (length_stripLeft_le l) h1)
  refine ⟨h2, ?_⟩
  simp only [strip, h2] at h
  exact h

theorem head_not_ws {c : Nat} {t : Str} (h : stripLeft (c :: t) = c :: t) : isWS c = false := by
  by_contra hc
  simp only [Bool.not_eq_false] at hc
  simp only [stripLeft, List.dropWhile_cons, hc, if_true] at h
  have hle : (List.dropWhile isWS t).length ≤ t.length :=
    (List.dropWhile_suffix isWS).sublist.length_le
  have := congrArg List.length h
  simp at this
  omega

theorem stripLeft_cons_not_ws {c : Nat} (t : Str) (hc : isWS c = false) :
    stripLeft (c :: t) = c :: t := by
  simp [stripLeft, List.dropWhile_cons, hc]

theorem stripRight_append (l : Str) {v : Str} (hv : stripRight v = v) (hne : v ≠ []) :
    stripRight (l ++ v) = l ++ v := by
  obtain ⟨c, t, hct⟩ : ∃ c t, v.reverse = c :: t := by
    cases hv' : v.reverse with
    | nil =>
      exact absurd (by simpa using congrArg List.reverse hv') hne
    | cons c t => exact ⟨c, t, rfl⟩
  have hdrop : List.dropWhile isWS v.reverse = v.reverse := by
    have h' := congrArg List.reverse hv
    simpa [stripRight] using h'
  have hc : isWS c = false := by
    by_contra hcc
    simp only [Bool.not_eq_false] at hcc
    rw [hct, List.dropWhile_cons, if_pos hcc] at hdrop
    have hle : (List.dropWhile isWS t).length ≤ t.length :=
      (List.dropWhile_suffix isWS).sublist.length_le
    have := congrArg List.length hdrop
    simp at this
    omega
  have hrev : (l ++ v).reverse = c :: (t ++ l.reverse) := by
    rw [List.reverse_append, hct]; simp
  calc stripRight (l ++ v) = ((l ++ v).reverse.dropWhile isWS).reverse := rfl
  _ = ((c :: (t ++ l.reverse)).dropWhile isWS).reverse := by rw [hrev]
  _ = (c :: (t ++ l.reverse)).reverse := by rw [List.dropWhile_cons, if_neg (by simp [hc])]
  _ = ((l ++ v).reverse).reverse := by rw [hrev]
  _ = l ++ v := List.reverse_reverse _

theorem dropWhile_append_last (p : Nat → Bool) (c : Nat) (hc : p c = false) :
    ∀ l : Str, ∃ s, List.dropWhile p (l ++ [c]) = s ++ [c]
  | [] => ⟨[], by simp [List.dropWhile_cons, hc]⟩
  | a :: l => by
    by_cases ha : p a = true
    · obtain ⟨s, hs⟩ := dropWhile_append_last p c hc l
      exact ⟨s, by simp [List.dropWhile_cons, ha, hs]⟩
    · exact ⟨a :: l, by simp [List.dropWhile_cons, ha]⟩

/-- A line that literally begins with `#` still begins with `#` after
`strip`, so the `startswith('#')` test fires on it. -/
theorem strip_cons_hash_head (t : Str) : (strip (35 :: t)).head? = some 35 := by
  have h1 : stripLeft (35 :: t) = 35 :: t := stripLeft_cons_not_ws t (by decide)
  obtain ⟨s, hs⟩ := dropWhile_append_last isWS 35 (by decide) t.reverse
  have h2 : stripRight (35 :: t) = 35 :: s.reverse := by
    calc stripRight (35 :: t) = ((35 :: t).reverse.dropWhile isWS).reverse := rfl
    _ = ((t.reverse ++ [35]).dropWhile isWS).reverse := by rw [List.reverse_cons]
    _ = (s ++ [35]).reverse := by rw [hs]
    _ = 35 :: s.reverse := by simp
  simp [strip, h1, h2]

theorem splitOnce_first (k v : Str) (hk : (61 : Nat) ∉ k) :
    splitOnce 61 (k ++ 61 :: v) = some (k, v) := by
  induction k with
  | nil => simp [splitOnce]
  | cons c k' ih =>
    have hc : c ≠ 61 := fun h => hk (by simp [h])
    simp [splitOnce, hc, ih (fun h => hk (List.mem_cons_of_mem _ h))]

/-- `strip` is the identity on a `KEY=value` line whose key is clean and
whose value has no trailing whitespace. -/
theorem strip_keyval (k v : Str)
    (hks : strip k = k) (hkne : k ≠ []) (hvr : stripRight v = v) :
    strip (k ++ 61 :: v) = k ++ 61 :: v := by
  obtain ⟨c, t, rfl⟩ : ∃ c t, k = c :: t := by
    cases k with
    | nil => exact absurd rfl hkne
    | cons c t => exact ⟨c, t, rfl⟩
  obtain ⟨hkl, _⟩ := strip_parts hks
  have hc : isWS c = false := head_not_ws hkl
  have hL : stripLeft ((c :: t) ++ 61 :: v) = (c :: t) ++ 61 :: v :=
    stripLeft_cons_not_ws _ hc
  have hR : stripRight ((c :: t) ++ 61 :: v) = (c :: t) ++ 61 :: v := by
    cases hv0 : v with
    | nil =>
      have : (c :: t) ++ 61 :: ([] : Str) = (c :: t) ++ [61] := rfl
      rw [this]
      exact stripRight_append (c :: t) (v := [61]) rfl (by simp)
    | cons a b =>
      subst hv0
      have hsplit : (c :: t) ++ 61 :: a :: b = ((c :: t) ++ [61]) ++ (a :: b) := by simp
      rw [hsplit]
      exact stripRight_append _ hvr (by simp)
  simp only [strip]
  rw [hL, hR]

/-- Classification of a well-formed `KEY=value` line whose key is clean and
whose value is `strip`-invariant: it parses as an entry with exactly that key
and value. -/
theorem classifySecretLine_keyval (k v : Str)
    (hks : strip k = k) (hkne : k ≠ []) (hk61 : (61 : Nat) ∉ k)
    (hkh : k.head? ≠ some 35) (hvs : strip v = v) :
    classifySecretLine (k ++ 61 :: v) = .entry k v := by
  have hstrip : strip (k ++ 61 :: v) = k ++ 61 :: v :=
    strip_keyval k v hks hkne (strip_parts hvs).2
  obtain ⟨c, t, rfl⟩ : ∃ c t, k = c :: t := by
    cases k with
    | nil => exact absurd rfl hkne
    | cons c t => exact ⟨c, t, rfl⟩
  have hch : c ≠ 35 := fun h => hkh (by simp [h])
  simp only [classifySecretLine, hstrip]
  rw [if_neg (by simp), if_neg (by simp [hch]), splitOnce_first _ _ hk61]
  simp [hks, hvs]

/-- Lines that are blank after stripping, or whose stripped form begins with
`#`, classify as skipped. -/
theorem classify_skip {line : Line}
    (h : strip line = [] ∨ line.head? = some 35) : classifySecretLine line = .skip := by
  rcases h with h | h
  · simp [classifySecretLine, h]
  · obtain ⟨t, rfl⟩ : ∃ t, line = 35 :: t := by
      cases line with
      | nil => simp at h
      | cons a t => simp at h; exact ⟨t, by rw [h]⟩
    have hh := strip_cons_hash_head t
    have hne : strip (35 :: t) ≠ [] := by
      intro h0
      rw [h0] at hh
      simp at hh
    simp [classifySecretLine, hne, hh]

/-- C7: when reading an existing secrets file, blank lines and lines
beginning with `#` contribute no dict entry and no warning; a malformed line
(no `=`) only adds a warning, the rest of the file is processed as if it were
absent; and whenever `ADMIN_PASSWORD` or `DB_ROOT_PASSWORD` is absent from
the parsed dict, `get_passwords` fails fatally (`sys.exit(1)`) with the list
of missing keys, instead of regenerating them. -/
theorem C7_secrets_file_error_handling :
    (∀ (line : Line) (rest : List Line),
      strip line = [] ∨ line.head? = some 35 →
      parseEntries (line :: rest) = parseEntries rest
        ∧ malformedOf (line :: rest) = malformedOf rest)
    ∧ (∀ (line : Line) (rest : List Line),
      classifySecretLine line = .malformed →
      readPasswordsFile (line :: rest) =
        (match readPasswordsFile rest with
          | .ok m w => .ok m (line :: w)
          | .fatal miss => .fatal miss))
    ∧ (∀ lines : List Line,
      hasKey (parseEntries lines) ADMIN_PASSWORD = false
        ∨ hasKey (parseEntries lines) DB_ROOT_PASSWORD = false →
      readPasswordsFile lines = .fatal (requiredMissing (parseEntries lines))
        ∧ requiredMissing (parseEntries lines) ≠ []
        ∧ (readPasswordsFile lines).exitCode = 1) := by
  refine ⟨?_, ?_, ?_⟩
  · intro line rest h
    have hs := classify_skip h
    constructor
    · simp [parseEntries, List.filterMap_cons, entryOf, hs]
    · simp [malformedOf, List.filter_cons, isMalformed, hs]
  · intro line rest hml
    have hE : entryOf line = none := by simp [entryOf, hml]
    have hM : isMalformed line = true := by simp [isMalformed, hml]
    simp only [readPasswordsFile, parseEntries, List.filterMap_cons, hE,
      malformedOf, List.filter_cons, hM, if_true]
    by_cases hmiss : requiredMissing (List.filterMap entryOf rest) = []
    · simp [hmiss, parseEntries, malformedOf]
    · simp [hmiss, parseEntries, malformedOf]
  · intro lines h
    have hne : requiredMissing (parseEntries lines) ≠ [] := by
      rcases h with h | h
      · simp [requiredMissing, h]
      · simp only [requiredMissing]
        cases hA : hasKey (parseEntries lines) ADMIN_PASSWORD <;> simp [hA, h]
    refine ⟨?_, hne, ?_⟩
    · simp [readPasswordsFile, hne]
    · simp [readPasswordsFile, hne, SecretsResult.exitCode]

/-- Witness for C7 at a concrete file: a comment line, a malformed line, and
a file missing `DB_ROOT_PASSWORD`. -/
theorem C7_secrets_file_error_handling_witness :
    (parseEntries (str2list "# header" :: [str2list "ADMIN_PASSWORD=x"])
        = parseEntries [str2list "ADMIN_PASSWORD=x"]
      ∧ malformedOf (str2list "# header" :: [str2list "ADMIN_PASSWORD=x"])
        = malformedOf [str2list "ADMIN_PASSWORD=x"])
    ∧ readPasswordsFile (str2list "garbage" :: [str2list "ADMIN_PASSWORD=x"]) =
        (match readPasswordsFile [str2list "ADMIN_PASSWORD=x"] with
          | .ok m w => .ok m (str2list "garbage" :: w)
          | .fatal miss => .fatal miss)
    ∧ readPasswordsFile [str2list "ADMIN_PASSWORD=x"]
        = .fatal (requiredMissing (parseEntries [str2list "ADMIN_PASSWORD=x"])) :=
  ⟨C7_secrets_file_error_handling.1 _ _ (Or.inr (by decide)),
    C7_secrets_file_error_handling.2.1 _ _ (by decide),
    (C7_secrets_file_error_handling.2.2 _ (Or.inr (by decide))).1⟩

/-! ### Variant B: `prepare_environment`
(easy-install-original-latest.py lines 155-193)

The function unconditionally calls `generate_pass()` twice and opens
`<project>-passwords.txt` with mode `"w"`, overwriting whatever is on disk;
it never reads an existing file.  The `existing` parameter records the file
content found on disk before the call, to make that explicit. -/

/-- Secrets part of Variant B `prepare_environment`: returns the passwords
used for this run and the file content afterwards.  `existing` is ignored,
exactly as the source ignores any existing `<project>-passwords.txt`. -/
def prepareEnvironmentSecrets (_existing : Option (List Line))
    (freshDb freshAdmin : Str) : (Str × Str) × List Line :=
  ((freshDb, freshAdmin),
    [ str2list "MARIADB_ROOT_PASSWORD: " ++ freshDb,
      str2list "ADMINISTRATOR_PASSWORD: " ++ freshAdmin ])

/-! ### Variant C: `Config`, `EnvironmentManager`, `DockerComposeManager`
(easy-install.py) -/

/-- Parsed command line of Variant C's `deploy` subcommand (the `upgrade`
parser lacks the `sites`/`email`/`apps` flags). -/
structure CArgs where
  project : Str
  sites : List Str
  email : Option Str
  apps : List Str
  backup_schedule : Str
  version : Option Str
  image : Option Str
  no_ssl : Bool
  http_port : Str
  force_pull : Bool

/-- `Config.__init__` (easy-install.py lines 40-59).  Note `self.tag =
args.version`. -/
structure ConfigC where
  project : Str
  sites : List Str
  email : Option Str
  apps : List Str
  cronstring : Str
  erpnext_version : Option Str
  image : Option Str
  tag : Option Str
  is_https : Bool
  http_port : Str
  force_pull : Bool

/-- Python truthiness of an optional string (`None` and `""` are falsy). -/
def pyTruthy (o : Option Str) : Bool :=
  match o with
  | none => false
  | some s => !s.isEmpty

/-- Python `a or b` for an optional/possibly-empty string `a`. -/
def pyOr (a : Option Str) (b : Str) : Str :=
  match a with
  | some s => if s.isEmpty then b else s
  | none => b

def ConfigC.ofArgs (a : CArgs) : ConfigC where
  project := a.project
  sites := if a.sites.isEmpty then [str2list "site1.localhost"] else a.sites
  email := a.email
  apps := a.apps
  cronstring := a.backup_schedule
  erpnext_version := a.version
  image := a.image
  tag := a.version
  is_https := !a.no_ssl
  http_port := a.http_port
  force_pull := a.force_pull

def DB_PASSWORD_KEY : Str := str2list "DB_PASSWORD"
def SITE_ADMIN_PASS_KEY : Str := str2list "SITE_ADMIN_PASS"
def SITES_KEY : Str := str2list "SITES"
def HTTP_PUBLISH_PORT_KEY : Str := str2list "HTTP_PUBLISH_PORT"
def CUSTOM_IMAGE_KEY : Str := str2list "CUSTOM_IMAGE"
def CUSTOM_TAG_KEY : Str := str2list "CUSTOM_TAG"

/-- Python `sep.join(xs)`. -/
def joinWith (sep : Str) : List Str → Str
  | [] => []
  | [x] => x
  | x :: rest => x ++ sep ++ joinWith sep rest

/-- `f"`...`"` quoting of one site name. -/
def quoteSite (s : Str) : Str := 96 :: (s ++ [96])

/-- `",".join([f"`{site}`" for site in config.sites])`. -/
def quotedSites (sites : List Str) : Str := joinWith [44] (sites.map quoteSite)

/-- `EnvironmentManager.write_env`'s `env_content` dict in insertion order
(easy-install.py lines 168-195).  `defaultVersion` stands for
`read_env(frappe_docker/example.env).get("ERPNEXT_VERSION")`. -/
def writeEnvContent (config : ConfigC) (defaultVersion : Option Str)
    (db_pass admin_pass : Str) : EnvMap :=
  [ (str2list "ERPNEXT_VERSION",
      pyOr config.erpnext_version (defaultVersion.getD (str2list "latest"))),
    (DB_PASSWORD_KEY, db_pass),
    (SITES_KEY, quotedSites config.sites),
    (str2list "LETSENCRYPT_EMAIL", pyOr config.email []),
    (SITE_ADMIN_PASS_KEY, admin_pass),
    (str2list "BACKUP_CRONSTRING", 34 :: (config.cronstring ++ [34])),
    (str2list "DB_HOST", str2list "db"),
    (str2list "DB_PORT", str2list "3306"),
    (str2list "REDIS_CACHE", str2list "redis-cache:6379"),
    (str2list "REDIS_QUEUE", str2list "redis-queue:6379"),
    (str2list "REDIS_SOCKETIO", str2list "redis-socketio:6379"),
    (str2list "PULL_POLICY", str2list "missing") ]
  ++ (if !config.is_https && !config.http_port.isEmpty
        then [(HTTP_PUBLISH_PORT_KEY, config.http_port)] else [])
  ++ (if pyTruthy config.image
        then [(CUSTOM_IMAGE_KEY, config.image.getD [])] else [])
  ++ (if pyTruthy config.tag
        then [(CUSTOM_TAG_KEY, config.tag.getD [])] else [])

/-- Serialisation of the dict: one `KEY=VALUE` line per entry
(the file is opened with mode `"w"`, so this is the whole new content). -/
def serializeEnv (m : EnvMap) : List Line := m.map (fun kv => kv.1 ++ 61 :: kv.2)

/-- `EnvironmentManager.read_env` body for one line: strip, then keep lines
that are nonempty, do not start with `#`, and contain `=`; split on the
first `=` with no further stripping of key or value. -/
def readEnvLine (line : Line) : Option (Str × Str) :=
  let l := strip line
  if l ≠ [] ∧ l.head? ≠ some 35 ∧ (61 : Nat) ∈ l then splitOnce 61 l else none

/-- The `env_vars[key] = value` assignments of `read_env`, in order. -/
def readEnvEntries (lines : List Line) : EnvMap := lines.filterMap readEnvLine

/-- `read_env(path)[k]` as an optional lookup (`env_vars.get(k)`). -/
def envGet (lines : List Line) (k : Str) : Option Str := dictGet (readEnvEntries lines) k

/-- Password resolution of `deploy_production` (easy-install.py lines
266-275): with an existing env file the stored `DB_PASSWORD` /
`SITE_ADMIN_PASS` are used (a fresh `generate_pass` result only fills a
missing key); with no env file both are fresh. -/
def deployCSecrets (envFileLines : Option (List Line)) (freshDb freshAdmin : Str) :
    Str × Str :=
  match envFileLines with
  | some lines =>
    ((envGet lines DB_PASSWORD_KEY).getD freshDb,
      (envGet lines SITE_ADMIN_PASS_KEY).getD freshAdmin)
  | none => (freshDb, freshAdmin)

/-- Site-list resolution of `deploy_production` (easy-install.py line 271):
`env_vars.get("SITES", "").replace("`", "").split(",") or config.sites`. -/
def pySplitComma (s : Str) : List Str :=
  match s with
  | [] => [[]]
  | c :: rest =>
    match pySplitComma rest with
    | [] => [[]]
    | r :: rs => if c = 44 then [] :: r :: rs else (c :: r) :: rs

def sitesFromEnv (lines : List Line) (configSites : List Str) : List Str :=
  let l := pySplitComma (((envGet lines SITES_KEY).getD []).filter (· ≠ 96))
  if l.isEmpty then configSites else l

/-! ### Round-trip lemmas for the Variant C env file -/

theorem readEnvLine_keyval (k v : Str)
    (hks : strip k = k) (hkne : k ≠ []) (hk61 : (61 : Nat) ∉ k)
    (hkh : k.head? ≠ some 35) (hvr : stripRight v = v) :
    readEnvLine (k ++ 61 :: v) = some (k, v) := by
  have hstrip : strip (k ++ 61 :: v) = k ++ 61 :: v := strip_keyval k v hks hkne hvr
  obtain ⟨c, t, rfl⟩ : ∃ c t, k = c :: t := by
    cases k with
    | nil => exact absurd rfl hkne
    | cons c t => exact ⟨c, t, rfl⟩
  have hch : c ≠ 35 := fun h => hkh (by simp [h])
  simp only [readEnvLine, hstrip]
  rw [if_pos ⟨by simp, by simp [hch], by simp⟩, splitOnce_first _ _ hk61]

/-- A dict entry that survives the `write_env`-then-`read_env` round trip
unchanged: clean key, value with no trailing whitespace. -/
def cleanPair (kv : Str × Str) : Prop :=
  strip kv.1 = kv.1 ∧ kv.1 ≠ [] ∧ (61 : Nat) ∉ kv.1 ∧ kv.1.head? ≠ some 35
    ∧ stripRight kv.2 = kv.2

theorem readEnvEntries_serialize (m : EnvMap) (h : ∀ kv ∈ m, cleanPair kv) :
    readEnvEntries (serializeEnv m) = m := by
  induction m with
  | nil => rfl
  | cons kv rest ih =>
    obtain ⟨h1, h2, h3, h4, h5⟩ := h kv (List.mem_cons_self _ _)
    have hline := readEnvLine_keyval kv.1 kv.2 h1 h2 h3 h4 h5
    have hrest := ih (fun kv' hkv' => h kv' (List.mem_cons_of_mem _ hkv'))
    simp only [serializeEnv, List.map_cons, readEnvEntries, List.filterMap_cons, hline]
    simp only [readEnvEntries, serializeEnv] at hrest
    rw [hrest]

theorem assocGet_append (l1 l2 : EnvMap) (k : Str) :
    assocGet (l1 ++ l2) k =
      (match assocGet l1 k with
        | some v => some v
        | none => assocGet l2 k) := by
  induction l1 with
  | nil => simp [assocGet]
  | cons kv l1 ih =>
    obtain ⟨k', v'⟩ := kv
    by_cases h : k' = k <;> simp [assocGet, h, ih]

theorem dictGet_append (l1 l2 : EnvMap) (k : Str) :
    dictGet (l1 ++ l2) k =
      (match dictGet l2 k with
        | some v => some v
        | none => dictGet l1 k) := by
  simp [dictGet, List.reverse_append, assocGet_append]

theorem dictGet_writeEnv_db (c : ConfigC) (defV : Option Str) (db admin : Str) :
    dictGet (writeEnvContent c defV db admin) DB_PASSWORD_KEY = some db := by
  simp only [writeEnvContent, dictGet_append]
  by_cases h1 : (!c.is_https && !c.http_port.isEmpty) = true <;>
  by_cases h2 : pyTruthy c.image = true <;>
  by_cases h3 : pyTruthy c.tag = true <;>
  simp [h1, h2, h3, dictGet, assocGet, DB_PASSWORD_KEY, HTTP_PUBLISH_PORT_KEY,
    CUSTOM_IMAGE_KEY, CUSTOM_TAG_KEY, SITES_KEY, SITE_ADMIN_PASS_KEY, str2list]

theorem dictGet_writeEnv_admin (c : ConfigC) (defV : Option Str) (db admin : Str) :
    dictGet (writeEnvContent c defV db admin) SITE_ADMIN_PASS_KEY = some admin := by
  simp only [writeEnvContent, dictGet_append]
  by_cases h1 : (!c.is_https && !c.http_port.isEmpty) = true <;>
  by_cases h2 : pyTruthy c.image = true <;>
  by_cases h3 : pyTruthy c.tag = true <;>
  simp [h1, h2, h3, dictGet, assocGet, DB_PASSWORD_KEY, HTTP_PUBLISH_PORT_KEY,
    CUSTOM_IMAGE_KEY, CUSTOM_TAG_KEY, SITES_KEY, SITE_ADMIN_PASS_KEY, str2list]

theorem quotedSites_ends (s : Str) (rest : List Str) :
    ∃ l, quotedSites (s :: rest) = l ++ [96] := by
  induction rest generalizing s with
  | nil => exact ⟨96 :: s, by simp [quotedSites, joinWith, quoteSite]⟩
  | cons s' rest ih =>
    obtain ⟨l, hl⟩ := ih s'
    refine ⟨(96 :: (s ++ [96])) ++ [44] ++ l, ?_⟩
    have : quotedSites (s :: s' :: rest) = quoteSite s ++ [44] ++ quotedSites (s' :: rest) := by
      simp [quotedSites, joinWith]
    rw [this, hl, quoteSite]
    simp

theorem stripRight_quotedSites (sites : List Str) :
    stripRight (quotedSites sites) = quotedSites sites := by
  cases sites with
  | nil => rfl
  | cons s rest =>
    obtain ⟨l, hl⟩ := quotedSites_ends s rest
    rw [hl]
    exact stripRight_append l (v := [96]) (by decide) (by simp)

theorem stripRight_pyOr (a : Option Str) (b : Str)
    (ha : ∀ s, a = some s → stripRight s = s) (hb : stripRight b = b) :
    stripRight (pyOr a b) = pyOr a b := by
  cases a with
  | none => exact hb
  | some s =>
    by_cases h : s.isEmpty <;> simp only [pyOr, h, if_true, if_false]
    · exact hb
    · exact ha s rfl

theorem cleanPair_mk {k v : Str} (h1 : strip k = k) (h2 : k ≠ [])
    (h3 : (61 : Nat) ∉ k) (h4 : k.head? ≠ some 35) (h5 : stripRight v = v) :
    cleanPair (k, v) := ⟨h1, h2, h3, h4, h5⟩

/-- Every entry `write_env` emits is round-trip clean, given trailing-space-
free password, email, version, image and port values. -/
theorem writeEnvContent_clean (c : ConfigC) (defV : Option Str) (db admin : Str)
    (hdb : stripRight db = db) (hadmin : stripRight admin = admin)
    (hemail : ∀ s, c.email = some s → stripRight s = s)
    (hver : ∀ s, c.erpnext_version = some s → stripRight s = s)
    (hdefv : ∀ s, defV = some s → stripRight s = s)
    (himg : ∀ s, c.image = some s → stripRight s = s)
    (htag : ∀ s, c.tag = some s → stripRight s = s)
    (hport : stripRight c.http_port = c.http_port) :
    ∀ kv ∈ writeEnvContent c defV db admin, cleanPair kv := by
  intro kv hkv
  simp only [writeEnvContent, List.mem_append] at hkv
  have hcron : stripRight (34 :: (c.cronstring ++ [34])) = 34 :: (c.cronstring ++ [34]) := by
    have : (34 : Nat) :: (c.cronstring ++ [34]) = (34 :: c.cronstring) ++ [34] := by simp
    rw [this]
    exact stripRight_append _ (v := [34]) (by decide) (by simp)
  rcases hkv with ((hkv | hkv) | hkv) | hkv
  · simp only [List.mem_cons, List.mem_singleton] at hkv
    rcases hkv with rfl | rfl | rfl | rfl | rfl | rfl | rfl | rfl | rfl | rfl | rfl | (rfl | hkv)
    · exact cleanPair_mk (by decide) (by decide) (by decide) (by decide)
        (stripRight_pyOr _ _ hver (by
          cases hd : defV with
          | none => decide
          | some s => simpa using hdefv s hd))
    · exact cleanPair_mk (by decide) (by decide) (by decide) (by decide) hdb
    · exact cleanPair_mk (by decide) (by decide) (by decide) (by decide) (stripRight_quotedSites _)
    · exact cleanPair_mk (by decide) (by decide) (by decide) (by decide) (stripRight_pyOr _ _ hemail (by decide))
    · exact cleanPair_mk (by decide) (by decide) (by decide) (by decide) hadmin
    · exact cleanPair_mk (by decide) (by decide) (by decide) (by decide) hcron
    · exact cleanPair_mk (by decide) (by decide) (by decide) (by decide) (by decide)
    · exact cleanPair_mk (by decide) (by decide) (by decide) (by decide) (by decide)
    · exact cleanPair_mk (by decide) (by decide) (by decide) (by decide) (by decide)
    · exact cleanPair_mk (by decide) (by decide) (by decide) (by decide) (by decide)
    · exact cleanPair_mk (by decide) (by decide) (by decide) (by decide) (by decide)
    · exact cleanPair_mk (by decide) (by decide) (by decide) (by decide) (by decide)
    · exact absurd hkv (List.not_mem_nil _)
  · split at hkv
    · simp only [List.mem_singleton] at hkv
      subst hkv
      exact cleanPair_mk (by decide) (by decide) (by decide) (by decide) hport
    · exact absurd hkv (List.not_mem_nil _)
  · split at hkv
    next himgT =>
      simp only [List.mem_singleton] at hkv
      subst hkv
      refine cleanPair_mk (by decide) (by decide) (by decide) (by decide) ?_
      cases hi : c.image with
      | none => decide
      | some s => simpa using himg s hi
    next => exact absurd hkv (List.not_mem_nil _)
  · split at hkv
    next htagT =>
      simp only [List.mem_singleton] at hkv
      subst hkv
      refine cleanPair_mk (by decide) (by decide) (by decide) (by decide) ?_
      cases ht : c.tag with
      | none => decide
      | some s => simpa using htag s ht
    next => exact absurd hkv (List.not_mem_nil _)

/-! ### C1: secret reuse across deploy/upgrade runs -/

theorem parseEntries_passwordsContent (a d : Str) (ha : strip a = a) (hd : strip d = d) :
    parseEntries (passwordsFileContent a d)
      = [(ADMIN_PASSWORD, a), (DB_ROOT_PASSWORD, d)]
    ∧ malformedOf (passwordsFileContent a d) = [] := by
  have hA : str2list "ADMIN_PASSWORD=" ++ a = ADMIN_PASSWORD ++ 61 :: a := by
    have h : str2list "ADMIN_PASSWORD=" = ADMIN_PASSWORD ++ [61] := by decide
    rw [h, List.append_assoc]
    rfl
  have hD : str2list "DB_ROOT_PASSWORD=" ++ d = DB_ROOT_PASSWORD ++ 61 :: d := by
    have h : str2list "DB_ROOT_PASSWORD=" = DB_ROOT_PASSWORD ++ [61] := by decide
    rw [h, List.append_assoc]
    rfl
  have e1 : classifySecretLine
      (str2list "# This file contains the auto-generated passwords for your deployment.")
      = .skip := classify_skip (Or.inr (by decide))
  have e2 : classifySecretLine
      (str2list "# Keep this file safe. It will be re-used on subsequent deployments.")
      = .skip := classify_skip (Or.inr (by decide))
  have e3 : classifySecretLine ([] : Line) = .skip := classify_skip (Or.inl rfl)
  have e4 : classifySecretLine (str2list "ADMIN_PASSWORD=" ++ a) = .entry ADMIN_PASSWORD a := by
    rw [hA]
    exact classifySecretLine_keyval _ _ (by decide) (by decide) (by decide) (by decide) ha
  have e5 : classifySecretLine (str2list "DB_ROOT_PASSWORD=" ++ d)
      = .entry DB_ROOT_PASSWORD d := by
    rw [hD]
    exact classifySecretLine_keyval _ _ (by decide) (by decide) (by decide) (by decide) hd
  constructor
  · simp [passwordsFileContent, parseEntries, List.filterMap_cons, entryOf, e1, e2, e3, e4, e5]
  · simp [passwordsFileContent, malformedOf, List.filter_cons, isMalformed, e1, e2, e3, e4, e5]

/-- C1 counterexample: in Variant B, a second `prepare_environment` run
with different fresh randomness returns different secrets even though the
project's secrets file already exists on disk after the first run — the
claim's "read back, never regenerated" fails for Variant B. -/
theorem C1_counterexample :
    (prepareEnvironmentSecrets
        (some (prepareEnvironmentSecrets none (str2list "aaa") (str2list "bbb")).2)
        (str2list "ccc") (str2list "ddd")).1
      ≠ (prepareEnvironmentSecrets none (str2list "aaa") (str2list "bbb")).1 := by
  decide

/-- C1 (amended): Variants A and C read the stored passwords back and ignore
the fresh randomness of the second run, so two successive deploys agree;
Variant B's `prepare_environment` always returns the freshly generated
passwords and overwrites the file, regardless of what exists on disk. -/
theorem C1_secret_reuse :
    (∀ a1 d1 a2 d2 : Str, strip a1 = a1 → strip d1 = d1 →
      getPasswordsA (some (getPasswordsA none a1 d1).2) a2 d2
        = (.ok [(ADMIN_PASSWORD, a1), (DB_ROOT_PASSWORD, d1)] [],
            (getPasswordsA none a1 d1).2))
    ∧ (∀ (cfg : ConfigC) (defV : Option Str) (db1 admin1 db2 admin2 : Str),
      stripRight db1 = db1 → stripRight admin1 = admin1 →
      (∀ s, cfg.email = some s → stripRight s = s) →
      (∀ s, cfg.erpnext_version = some s → stripRight s = s) →
      (∀ s, defV = some s → stripRight s = s) →
      (∀ s, cfg.image = some s → stripRight s = s) →
      (∀ s, cfg.tag = some s → stripRight s = s) →
      stripRight cfg.http_port = cfg.http_port →
      deployCSecrets (some (serializeEnv (writeEnvContent cfg defV db1 admin1))) db2 admin2
        = (db1, admin1))
    ∧ (∀ (file : Option (List Line)) (freshDb freshAdmin : Str),
      (prepareEnvironmentSecrets file freshDb freshAdmin).1 = (freshDb, freshAdmin)) := by
  refine ⟨?_, ?_, fun _ _ _ => rfl⟩
  · intro a1 d1 a2 d2 ha hd
    obtain ⟨hp, hm⟩ := parseEntries_passwordsContent a1 d1 ha hd
    have hmiss : requiredMissing [(ADMIN_PASSWORD, a1), (DB_ROOT_PASSWORD, d1)] = [] := by
      simp [requiredMissing, hasKey]
    simp only [getPasswordsA, readPasswordsFile, hp, hm, hmiss]
    simp
  · intro cfg defV db1 admin1 db2 admin2 hdb hadmin hemail hver hdefv himg htag hport
    have hclean := writeEnvContent_clean cfg defV db1 admin1 hdb hadmin
      hemail hver hdefv himg htag hport
    have hrt := readEnvEntries_serialize _ hclean
    simp only [deployCSecrets, envGet, hrt, dictGet_writeEnv_db, dictGet_writeEnv_admin,
      Option.getD_some]

/-- Example Variant C configuration (the parser defaults of `deploy` with no
flags given). -/
def cfgDefaultC : ConfigC :=
  ConfigC.ofArgs
    { project := str2list "frappe"
      sites := []
      email := none
      apps := []
      backup_schedule := str2list "@every 6h"
      version := none
      image := none
      no_ssl := false
      http_port := str2list "8080"
      force_pull := false }

/-- Witness for C1 at concrete passwords and the default Variant C config. -/
theorem C1_secret_reuse_witness :
    getPasswordsA (some (getPasswordsA none (str2list "alpha") (str2list "beta")).2)
        (str2list "gamma") (str2list "delta")
      = (.ok [(ADMIN_PASSWORD, str2list "alpha"), (DB_ROOT_PASSWORD, str2list "beta")] [],
          (getPasswordsA none (str2list "alpha") (str2list "beta")).2)
    ∧ deployCSecrets
        (some (serializeEnv (writeEnvContent cfgDefaultC none (str2list "dpass") (str2list "apass"))))
        (str2list "x") (str2list "y") = (str2list "dpass", str2list "apass") :=
  ⟨C1_secret_reuse.1 _ _ _ _ (by decide) (by decide),
    C1_secret_reuse.2.1 cfgDefaultC none _ _ _ _ (by decide) (by decide)
      (fun s h => nomatch h) (fun s h => nomatch h) (fun s h => nomatch h)
      (fun s h => nomatch h) (fun s h => nomatch h) (by decide)⟩

/-! ### C2: compose manifest assembly
Variant B: `get_compose_files` (easy-install-original-latest.py lines
131-147); Variant C: `DockerComposeManager.generate_compose_file`
(easy-install.py lines 209-233). -/

inductive BCommand
  | build | deploy | upgrade | develop | exec
deriving DecidableEq

/-- The argparse namespace fields `get_compose_files` inspects.  `no_ssl =
none` models a namespace *without* the `no_ssl` attribute (the `upgrade`,
`develop` and `exec` parsers define no `-q` flag), so that
`hasattr(args, 'no_ssl') and args.no_ssl` holds exactly when
`no_ssl = some true`. -/
structure BComposeArgs where
  command : BCommand
  no_ssl : Option Bool
deriving DecidableEq

/-- `get_compose_files(args)`: the `-f`-interleaved compose file list. -/
def getComposeFiles (a : BComposeArgs) : List Str :=
  [ str2list "-f", str2list "compose.yaml",
    str2list "-f", str2list "overrides/compose.mariadb.yaml",
    str2list "-f", str2list "overrides/compose.redis.yaml" ]
  ++ (if a.no_ssl = some true
      then [str2list "-f", str2list "overrides/compose.noproxy.yaml"]
      else [str2list "-f", str2list "overrides/compose.proxy.yaml",
            str2list "-f", str2list "overrides/compose.https.yaml"])
  ++ (if a.command = .deploy ∨ a.command = .upgrade
      then [str2list "-f", str2list "overrides/compose.backup-cron.yaml"]
      else [])

/-- The fragment paths of `get_compose_files`, with the `-f` flags removed. -/
def composePathsB (a : BComposeArgs) : List Str :=
  (getComposeFiles a).filter (· ≠ str2list "-f")

/-- The backup-cron tail: present for `deploy` and `upgrade` only. -/
def cronTailB (a : BComposeArgs) : List Str :=
  if a.command = .deploy ∨ a.command = .upgrade
  then [str2list "overrides/compose.backup-cron.yaml"] else []

/-- Variant C `generate_compose_file`'s `compose_files` list (always five
entries; backup-cron unconditionally last). -/
def composeFilesC (is_https : Bool) : List Str :=
  [ str2list "compose.yaml",
    str2list "overrides/compose.mariadb.yaml",
    str2list "overrides/compose.redis.yaml",
    if is_https then str2list "overrides/compose.https.yaml"
      else str2list "overrides/compose.noproxy.yaml",
    str2list "overrides/compose.backup-cron.yaml" ]

/-- C2 counterexample: in Variant C with SSL enabled the assembled fragment
list does *not* contain the proxy override (only the https override), so the
claimed "proxy followed by https" slot fails for Variant C. -/
theorem C2_counterexample :
    str2list "overrides/compose.proxy.yaml" ∉ composeFilesC true := by decide

/-- C2 (amended): in Variant B, an SSL-enabled invocation assembles
base/mariadb/redis then proxy followed by https (never no-proxy) before the
backup-cron tail, and an SSL-disabled invocation puts exactly the no-proxy
fragment in that slot; in Variant C the SSL-enabled slot holds only the
https override (no proxy fragment) and the SSL-disabled slot only no-proxy,
with backup-cron always last. -/
theorem C2_compose_assembly :
    (∀ a : BComposeArgs, a.no_ssl ≠ some true →
      composePathsB a
          = [str2list "compose.yaml", str2list "overrides/compose.mariadb.yaml",
             str2list "overrides/compose.redis.yaml", str2list "overrides/compose.proxy.yaml",
             str2list "overrides/compose.https.yaml"] ++ cronTailB a
        ∧ str2list "overrides/compose.noproxy.yaml" ∉ composePathsB a)
    ∧ (∀ a : BComposeArgs, a.no_ssl = some true →
      composePathsB a
          = [str2list "compose.yaml", str2list "overrides/compose.mariadb.yaml",
             str2list "overrides/compose.redis.yaml", str2list "overrides/compose.noproxy.yaml"]
            ++ cronTailB a
        ∧ str2list "overrides/compose.proxy.yaml" ∉ composePathsB a
        ∧ str2list "overrides/compose.https.yaml" ∉ composePathsB a)
    ∧ (composeFilesC true
        = [str2list "compose.yaml", str2list "overrides/compose.mariadb.yaml",
           str2list "overrides/compose.redis.yaml", str2list "overrides/compose.https.yaml",
           str2list "overrides/compose.backup-cron.yaml"]
      ∧ str2list "overrides/compose.noproxy.yaml" ∉ composeFilesC true)
    ∧ (composeFilesC false
        = [str2list "compose.yaml", str2list "overrides/compose.mariadb.yaml",
           str2list "overrides/compose.redis.yaml", str2list "overrides/compose.noproxy.yaml",
           str2list "overrides/compose.backup-cron.yaml"]
      ∧ str2list "overrides/compose.https.yaml" ∉ composeFilesC false) := by
  refine ⟨?_, ?_, by decide, by decide⟩
  · intro a h
    by_cases h2 : a.command = BCommand.deploy ∨ a.command = BCommand.upgrade
    · simp only [composePathsB, getComposeFiles, cronTailB, if_neg h, if_pos h2]
      decide
    · simp only [composePathsB, getComposeFiles, cronTailB, if_neg h, if_neg h2]
      decide
  · intro a h
    by_cases h2 : a.command = BCommand.deploy ∨ a.command = BCommand.upgrade
    · simp only [composePathsB, getComposeFiles, cronTailB, if_pos h, if_pos h2]
      decide
    · simp only [composePathsB, getComposeFiles, cronTailB, if_pos h, if_neg h2]
      decide

/-- Witness for C2: a Variant B `deploy` with SSL on (flag absent ⇒ `False`
default would be `some false`; here literally `some false`) and one with
`-q` given. -/
theorem C2_compose_assembly_witness :
    composePathsB ⟨BCommand.deploy, some false⟩
        = [str2list "compose.yaml", str2list "overrides/compose.mariadb.yaml",
           str2list "overrides/compose.redis.yaml", str2list "overrides/compose.proxy.yaml",
           str2list "overrides/compose.https.yaml"] ++ cronTailB ⟨BCommand.deploy, some false⟩
    ∧ composePathsB ⟨BCommand.deploy, some true⟩
        = [str2list "compose.yaml", str2list "overrides/compose.mariadb.yaml",
           str2list "overrides/compose.redis.yaml", str2list "overrides/compose.noproxy.yaml"]
          ++ cronTailB ⟨BCommand.deploy, some true⟩ :=
  ⟨(C2_compose_assembly.1 ⟨BCommand.deploy, some false⟩ (by decide)).1,
    (C2_compose_assembly.2.1 ⟨BCommand.deploy, some true⟩ (by decide)).1⟩

/-! ### C3: Variant C `write_env` key presence -/

/-- The twelve unconditional keys of `env_content`. -/
def fixedEnvKeys : List Str :=
  [ str2list "ERPNEXT_VERSION", DB_PASSWORD_KEY, SITES_KEY, str2list "LETSENCRYPT_EMAIL",
    SITE_ADMIN_PASS_KEY, str2list "BACKUP_CRONSTRING", str2list "DB_HOST", str2list "DB_PORT",
    str2list "REDIS_CACHE", str2list "REDIS_QUEUE", str2list "REDIS_SOCKETIO",
    str2list "PULL_POLICY" ]

/-- Example Variant C `deploy` args: no custom image, but a `--version`. -/
def argsTagOnly : CArgs where
  project := str2list "frappe"
  sites := []
  email := none
  apps := []
  backup_schedule := str2list "@every 6h"
  version := some (str2list "v15")
  image := none
  no_ssl := false
  http_port := str2list "8080"
  force_pull := false

/-- C3 counterexample: with `--version v15` and no custom image configured,
`write_env` still emits the `CUSTOM_TAG` key (because `Config.__init__` sets
`self.tag = args.version`), so "custom image key and custom tag key are
present exactly when a custom image is configured" fails. -/
theorem C3_counterexample :
    hasKey (writeEnvContent (ConfigC.ofArgs argsTagOnly) none
        (str2list "dbp") (str2list "adp")) CUSTOM_TAG_KEY = true
    ∧ (ConfigC.ofArgs argsTagOnly).image = none := by decide

theorem contains_append_str (l1 l2 : List Str) (k : Str) :
    (l1 ++ l2).contains k = (l1.contains k || l2.contains k) := by
  induction l1 with
  | nil => simp
  | cons a l1 ih => by_cases h : a = k <;> simp [List.contains_cons, h, ih, Bool.or_assoc]

/-- The key list of `write_env`'s dict: the fixed twelve keys followed by the
three conditional ones, independent of the values. -/
theorem writeEnv_keys (c : ConfigC) (defV : Option Str) (db admin : Str) :
    (writeEnvContent c defV db admin).map Prod.fst
      = fixedEnvKeys
        ++ (if !c.is_https && !c.http_port.isEmpty then [HTTP_PUBLISH_PORT_KEY] else [])
        ++ (if pyTruthy c.image then [CUSTOM_IMAGE_KEY] else [])
        ++ (if pyTruthy c.tag then [CUSTOM_TAG_KEY] else []) := by
  by_cases h1 : (!c.is_https && !c.http_port.isEmpty) = true <;>
  by_cases h2 : pyTruthy c.image = true <;>
  by_cases h3 : pyTruthy c.tag = true <;>
  simp [writeEnvContent, fixedEnvKeys, h1, h2, h3]

/-- C3 (amended): for every `write_env`, the HTTP publish port key is
present exactly when SSL is disabled *and* the port string is nonempty; the
custom image key is present exactly when a custom image is configured; the
custom tag key is present exactly when a `--version` is configured (the tag
is a copy of the version flag, not of the image); and every key of the
fixed twelve-key set is always written.  The env file is opened with mode
`"w"`, so this dict is the entire new content. -/
theorem C3_env_write_keys (a : CArgs) (defV : Option Str) (db admin : Str) :
    hasKey (writeEnvContent (ConfigC.ofArgs a) defV db admin) HTTP_PUBLISH_PORT_KEY
        = (a.no_ssl && !a.http_port.isEmpty)
    ∧ hasKey (writeEnvContent (ConfigC.ofArgs a) defV db admin) CUSTOM_IMAGE_KEY
        = pyTruthy a.image
    ∧ hasKey (writeEnvContent (ConfigC.ofArgs a) defV db admin) CUSTOM_TAG_KEY
        = pyTruthy a.version
    ∧ fixedEnvKeys.all
        (fun k => hasKey (writeEnvContent (ConfigC.ofArgs a) defV db admin) k) = true := by
  have hcond : (!(ConfigC.ofArgs a).is_https && !(ConfigC.ofArgs a).http_port.isEmpty)
      = (a.no_ssl && !a.http_port.isEmpty) := by
    simp [ConfigC.ofArgs]
  have himg : pyTruthy (ConfigC.ofArgs a).image = pyTruthy a.image := rfl
  have htag : pyTruthy (ConfigC.ofArgs a).tag = pyTruthy a.version := rfl
  have hk := writeEnv_keys (ConfigC.ofArgs a) defV db admin
  rw [hcond, himg, htag] at hk
  have hK : ∀ k : Str, hasKey (writeEnvContent (ConfigC.ofArgs a) defV db admin) k
      = (fixedEnvKeys.contains k
          || (if (a.no_ssl && !a.http_port.isEmpty) = true then [HTTP_PUBLISH_PORT_KEY] else []).contains k
          || (if pyTruthy a.image = true then [CUSTOM_IMAGE_KEY] else []).contains k
          || (if pyTruthy a.version = true then [CUSTOM_TAG_KEY] else []).contains k) := by
    intro k
    rw [hasKey, hk, contains_append_str, contains_append_str, contains_append_str]
  refine ⟨?_, ?_, ?_, ?_⟩
  · rw [hK]
    by_cases h1 : (a.no_ssl && !a.http_port.isEmpty) = true <;>
    by_cases h2 : pyTruthy a.image = true <;>
    by_cases h3 : pyTruthy a.version = true <;>
    simp only [h1, h2, h3, if_true, if_false, Bool.if_true_left] <;>
    simp [h1, h2, h3] <;> decide
  · rw [hK]
    by_cases h1 : (a.no_ssl && !a.http_port.isEmpty) = true <;>
    by_cases h2 : pyTruthy a.image = true <;>
    by_cases h3 : pyTruthy a.version = true <;>
    simp [h1, h2, h3] <;> decide
  · rw [hK]
    by_cases h1 : (a.no_ssl && !a.http_port.isEmpty) = true <;>
    by_cases h2 : pyTruthy a.image = true <;>
    by_cases h3 : pyTruthy a.version = true <;>
    simp [h1, h2, h3] <;> decide
  · rw [List.all_eq_true]
    intro k hkmem
    rw [hK]
    simp [hkmem]

/-! ### C4: Variant C `main` and the example.com email guard
(easy-install.py lines 362-376)

Side effects (file writes, removals, downloads, child processes) are
recorded as an ordered trace; the pair's second component is the process
exit status. -/

inductive SideEffect
  | fileWrite (path : Str)
  | fileRemove (path : Str)
  | download (url : Str)
  | procRun (argv : List Str)
deriving DecidableEq

/-- External state a Variant C deploy observes: whether `docker` resolves,
whether `./frappe_docker` exists, and the project env file's content. -/
structure ExtState where
  dockerPresent : Bool
  frappeDockerPresent : Bool
  envFile : Option (List Line)

/-- `install_container_runtime` when `which("docker")` fails (Linux path). -/
def installDockerEffects : List SideEffect :=
  [ .procRun [str2list "curl", str2list "-fsSL", str2list "https://get.docker.com"],
    .procRun [str2list "sudo", str2list "/bin/bash"],
    .procRun [str2list "sudo", str2list "usermod", str2list "-aG", str2list "docker"],
    .procRun [str2list "sudo", str2list "systemctl", str2list "restart",
      str2list "docker.service"] ]

/-- `clone_frappe_docker_repo`: download the archive, unpack/rename, delete
the archive. -/
def cloneFrappeDockerEffects : List SideEffect :=
  [ .download (str2list "https://github.com/frappe/frappe_docker/archive/refs/heads/main.zip"),
    .fileWrite (str2list "frappe_docker.zip"),
    .fileWrite (str2list "frappe_docker"),
    .fileRemove (str2list "frappe_docker.zip") ]

/-- `setup_environment(force_pull)`. -/
def setupEnvironmentEffects (forcePull : Bool) (st : ExtState) : List SideEffect :=
  (if st.dockerPresent then [] else installDockerEffects)
  ++ (if forcePull && st.frappeDockerPresent
      then [.fileRemove (str2list "frappe_docker")] else [])
  ++ (if st.frappeDockerPresent && !forcePull then [] else cloneFrappeDockerEffects)

def envFilePath (project : Str) : Str := str2list "~/" ++ project ++ str2list ".env"
def composeFilePath (project : Str) : Str := str2list "~/" ++ project ++ str2list "-compose.yml"
def passwordsFilePath (project : Str) : Str := str2list "~/" ++ project ++ str2list "-passwords.txt"

/-- Python `needle in hay` on strings: substring containment. -/
def isSubstring (needle hay : Str) : Bool := decide (needle <:+: hay)

/-- `DockerComposeManager.exec_in_backend` (non-interactive). -/
def execInBackend (project : Str) (cmd : List Str) : SideEffect :=
  .procRun ([str2list "docker", str2list "compose", str2list "-p", project,
    str2list "exec", str2list "backend"] ++ cmd)

/-- The `bench new-site` command `deploy_production` issues per site. -/
def newSiteCmd (site db admin : Str) (apps : List Str) : List Str :=
  [ str2list "bench", str2list "new-site", site, str2list "--no-mariadb-socket",
    str2list "--db-root-password=" ++ db, str2list "--admin-password=" ++ admin ]
  ++ (apps.map (fun app => [str2list "--install-app", app])).flatten

/-- Side-effect trace of `deploy_production(config)` (easy-install.py lines
261-303), in program order. -/
def deployProductionEffects (cfg : ConfigC) (st : ExtState)
    (freshDb freshAdmin : Str) : List SideEffect :=
  let secrets := deployCSecrets st.envFile freshDb freshAdmin
  let sites := match st.envFile with
    | some lines => sitesFromEnv lines cfg.sites
    | none => cfg.sites
  setupEnvironmentEffects cfg.force_pull st
  ++ (match st.envFile with
      | some _ => []
      | none => [.fileWrite (passwordsFilePath cfg.project)])
  ++ [ .fileWrite (envFilePath cfg.project),
       .procRun ([str2list "docker", str2list "compose", str2list "--project-name",
          cfg.project, str2list "--env-file", envFilePath cfg.project]
        ++ ((composeFilesC cfg.is_https).map (fun f => [str2list "-f", f])).flatten
        ++ [str2list "config"]),
       .fileWrite (composeFilePath cfg.project),
       .procRun [str2list "docker", str2list "compose", str2list "-p", cfg.project,
          str2list "-f", composeFilePath cfg.project, str2list "up", str2list "-d",
          str2list "--remove-orphans", str2list "--force-recreate"] ]
  ++ sites.map (fun site =>
      execInBackend cfg.project (newSiteCmd site secrets.1 secrets.2 cfg.apps))

/-- `main` for the `deploy` subcommand: build the `Config`, run the
example.com guard, then (only if not rejected) `deploy_production`.
Rejection performs no side effect and exits with status 1. -/
def mainDeployC (a : CArgs) (st : ExtState) (freshDb freshAdmin : Str) :
    List SideEffect × Nat :=
  let config := ConfigC.ofArgs a
  if pyTruthy config.email && isSubstring (str2list "example.com") (config.email.getD [])
  then ([], 1)
  else (deployProductionEffects config st freshDb freshAdmin, 0)

/-- C4: a Variant C deploy whose `--email` contains `example.com` is
rejected with exit status 1 before any file write, download or process
start; deploys whose email does not contain that substring pass the guard
and run the full deployment.  (The `upgrade` parser has no `--email` flag at
all, so the quantification over upgrades is empty.) -/
theorem C4_email_policy_guard :
    (∀ (a : CArgs) (st : ExtState) (fd fa e : Str),
      a.email = some e → isSubstring (str2list "example.com") e = true →
      mainDeployC a st fd fa = ([], 1))
    ∧ (∀ (a : CArgs) (st : ExtState) (fd fa : Str),
      (∀ e, a.email = some e → isSubstring (str2list "example.com") e = false) →
      mainDeployC a st fd fa
        = (deployProductionEffects (ConfigC.ofArgs a) st fd fa, 0)) := by
  constructor
  · intro a st fd fa e he hinf
    have hne : ¬e.isEmpty := by
      intro h0
      rw [List.isEmpty_iff.mp h0] at hinf
      exact absurd hinf (by decide)
    have hcfg : (ConfigC.ofArgs a).email = some e := he
    simp only [mainDeployC, hcfg]
    rw [if_pos]
    simp only [pyTruthy, Option.getD_some, hinf, Bool.and_true]
    simpa using hne
  · intro a st fd fa h
    have hc : (pyTruthy (ConfigC.ofArgs a).email
        && isSubstring (str2list "example.com") ((ConfigC.ofArgs a).email.getD [])) = false := by
      cases he : (ConfigC.ofArgs a).email with
      | none => simp [pyTruthy, he]
      | some e =>
        have := h e he
        simp [pyTruthy, he, this]
    simp only [mainDeployC, hc]
    simp

/-- Witness for C4: concrete rejected and accepted deploys. -/
theorem C4_email_policy_guard_witness :
    mainDeployC { argsTagOnly with email := some (str2list "user@example.com") }
        ⟨true, true, none⟩ (str2list "d") (str2list "a") = ([], 1)
    ∧ mainDeployC { argsTagOnly with email := some (str2list "ops@acme.io") }
        ⟨true, true, none⟩ (str2list "d") (str2list "a")
      = (deployProductionEffects
          (ConfigC.ofArgs { argsTagOnly with email := some (str2list "ops@acme.io") })
          ⟨true, true, none⟩ (str2list "d") (str2list "a"), 0) :=
  ⟨C4_email_policy_guard.1 _ _ _ _ (str2list "user@example.com") rfl (by decide),
    C4_email_policy_guard.2 _ _ _ _ (fun e he => by
      simp only [ConfigC.ofArgs] at he
      rw [Option.some_inj] at he
      subst he
      decide)⟩

/-! ### C6: Variant A `destroy` confirmation
(easy-install-latest.py lines 394-406) -/

/-- Python `str.lower` on a code point (ASCII range; no other code point
lowercases to `y`, so the `== 'y'` comparison below is unaffected outside
ASCII). -/
def asciiLower (c : Nat) : Nat := if 65 ≤ c ∧ c ≤ 90 then c + 32 else c

/-- `confirm.lower()`. -/
def pyLower (l : Str) : Str := l.map asciiLower

/-- Observable outcome of `destroy`: whether `docker compose down -v` was
attempted (stopping services and removing volumes), whether the
"Operation cancelled." message was printed, and the exit status. -/
structure DestroyOutcome where
  stoppedServices : Bool
  removedVolumes : Bool
  cancelledMessage : Bool
  exitCode : Nat
deriving DecidableEq

/-- `destroy(args)`: check the project files exist, prompt, and proceed only
when the lowercased input equals `y`; `run_command` failure exits 1. -/
def destroyA (projectExists : Bool) (confirm : Str) (composeDownSucceeds : Bool) :
    DestroyOutcome :=
  if !projectExists then ⟨false, false, false, 1⟩
  else if pyLower confirm ≠ str2list "y" then ⟨false, false, true, 0⟩
  else if composeDownSucceeds then ⟨true, true, false, 0⟩
  else ⟨true, true, false, 1⟩

theorem pyLower_eq_y (l : Str) : pyLower l = [121] ↔ l = [121] ∨ l = [89] := by
  constructor
  · intro h
    cases l with
    | nil => simp [pyLower] at h
    | cons c t =>
      cases t with
      | nil =>
        simp only [pyLower, List.map_cons, List.map_nil, List.cons.injEq, and_true] at h
        by_cases hb : 65 ≤ c ∧ c ≤ 90
        · right
          rw [asciiLower, if_pos hb] at h
          have : c = 89 := by omega
          simp [this]
        · left
          rw [asciiLower, if_neg hb] at h
          simp [h]
      | cons c' t' => simp [pyLower] at h
  · intro h
    rcases h with rfl | rfl <;> decide

/-- C6: any confirmation input other than `y`/`Y` (including empty input)
cancels the destroy — nothing is stopped, no volume is removed, the
cancellation message is printed and the process exits 0; input `y` or `Y`
proceeds to stop services and delete volumes. -/
theorem C6_destroy_confirmation :
    (∀ (confirm : Str) (ok : Bool),
      confirm ≠ str2list "y" → confirm ≠ str2list "Y" →
      destroyA true confirm ok
        = { stoppedServices := false, removedVolumes := false,
            cancelledMessage := true, exitCode := 0 })
    ∧ (∀ ok : Bool,
      (destroyA true (str2list "y") ok).stoppedServices = true
        ∧ (destroyA true (str2list "y") ok).removedVolumes = true
        ∧ (destroyA true (str2list "Y") ok).stoppedServices = true
        ∧ (destroyA true (str2list "Y") ok).removedVolumes = true) := by
  have hy : str2list "y" = [121] := by decide
  have hY : str2list "Y" = [89] := by decide
  constructor
  · intro confirm ok h1 h2
    rw [hy] at h1
    rw [hY] at h2
    have hne : pyLower confirm ≠ str2list "y" := by
      rw [hy]
      intro h
      rcases (pyLower_eq_y confirm).mp h with rfl | rfl
      · exact h1 rfl
      · exact h2 rfl
    simp [destroyA, hne]
  · intro ok
    cases ok <;> decide

/-- Witness for C6: the empty input and the input `n` both cancel. -/
theorem C6_destroy_confirmation_witness :
    destroyA true [] true
        = { stoppedServices := false, removedVolumes := false,
            cancelledMessage := true, exitCode := 0 }
    ∧ destroyA true (str2list "n") true
        = { stoppedServices := false, removedVolumes := false,
            cancelledMessage := true, exitCode := 0 } :=
  ⟨C6_destroy_confirmation.1 [] true (by decide) (by decide),
    C6_destroy_confirmation.1 (str2list "n") true (by decide) (by decide)⟩

/-! ### C10: site list used by Variant C deploy when an env file exists -/

theorem pySplitComma_ne_nil (s : Str) : pySplitComma s ≠ [] := by
  cases s with
  | nil => simp [pySplitComma]
  | cons c rest =>
    simp only [pySplitComma]
    cases h : pySplitComma rest with
    | nil => simp
    | cons r rs => by_cases hc : c = 44 <;> simp [hc]

/-- C10: with an existing env file, the deploy site list is exactly the
file's `SITES` value with backticks removed and split on commas — the
command-line sites are never used — and an absent or empty `SITES` value
yields the one-element list containing the empty site name (Python's
`"".split(",") == [""]` is truthy, so the `or config.sites` fallback never
fires). -/
theorem C10_site_list_from_env :
    (∀ (lines : List Line) (cliSites : List Str),
      sitesFromEnv lines cliSites
        = pySplitComma (((envGet lines SITES_KEY).getD []).filter (· ≠ 96)))
    ∧ (∀ (lines : List Line) (cliSites : List Str),
      envGet lines SITES_KEY = none ∨ envGet lines SITES_KEY = some [] →
      sitesFromEnv lines cliSites = [[]]) := by
  have key : ∀ (lines : List Line) (cliSites : List Str),
      sitesFromEnv lines cliSites
        = pySplitComma (((envGet lines SITES_KEY).getD []).filter (· ≠ 96)) := by
    intro lines cliSites
    simp only [sitesFromEnv]
    rw [if_neg]
    simp [List.isEmpty_iff, pySplitComma_ne_nil]
  refine ⟨key, ?_⟩
  intro lines cliSites h
  rw [key]
  rcases h with h | h <;> rw [h] <;> rfl

/-- Witness for C10: an env file with no `SITES` key (here: empty file)
forces the single empty site name, whatever the command line said. -/
theorem C10_site_list_from_env_witness :
    sitesFromEnv [] [str2list "cli.example"] = [[]] :=
  C10_site_list_from_env.2 [] [str2list "cli.example"] (Or.inl (by decide))

/-! ### C9: `generate_pass`
Variant A: easy-install-latest.py lines 295-297 (default 16);
Variant B: easy-install-original-latest.py lines 150-152 (default 12);
Variant C: easy-install.py lines 88-92 (default 12). -/

/-- One lowercase hexadecimal digit (`'0'..'9'`, `'a'..'f'`). -/
def hexDigitChar (d : Nat) : Nat := if d < 10 then 48 + d else 87 + d

/-- `secrets.token_hex(nbytes)`: two lowercase hex digits per random byte;
`bytes` stands for the bytes the OS entropy source produced. -/
def tokenHex (bytes : List Nat) : Str :=
  (bytes.map (fun b => [hexDigitChar (b / 16), hexDigitChar (b % 16)])).flatten

/-- `secrets.token_hex(math.ceil(length / 2))[:length]` (Variants A and C):
the call consumes `⌈length/2⌉` bytes of the entropy stream. -/
def generatePassHex (randomBytes : List Nat) (length : Nat) : Str :=
  (tokenHex (randomBytes.take ((length + 1) / 2))).take length

/-- Variant A `generate_pass` with its default length 16. -/
def generate_pass_A (randomBytes : List Nat) (length : Nat := 16) : Str :=
  generatePassHex randomBytes length

/-- Variant C `generate_pass` with its default length 12. -/
def generate_pass_C (randomBytes : List Nat) (length : Nat := 12) : Str :=
  generatePassHex randomBytes length

/-- `string.ascii_letters + string.digits` (lowercase, uppercase, digits). -/
def asciiLettersDigits : Str :=
  ((List.range 26).map (fun i => 97 + i)) ++ ((List.range 26).map (fun i => 65 + i))
    ++ ((List.range 10).map (fun i => 48 + i))

/-- Variant B `generate_pass`: `length` draws of `secrets.choice(alphabet)`,
with `picks` standing for the random indices drawn; default length 12. -/
def generate_pass_B (picks : List Nat) (length : Nat := 12) : Str :=
  (picks.take length).map (fun i => asciiLettersDigits.getD i 0)

def isLowerHexDigit (c : Nat) : Bool := (48 ≤ c && c ≤ 57) || (97 ≤ c && c ≤ 102)

def isAsciiAlnum (c : Nat) : Bool :=
  (65 ≤ c && c ≤ 90) || (97 ≤ c && c ≤ 122) || (48 ≤ c && c ≤ 57)

theorem tokenHex_length (bytes : List Nat) : (tokenHex bytes).length = 2 * bytes.length := by
  induction bytes with
  | nil => rfl
  | cons b rest ih =>
    simp [tokenHex] at ih ⊢
    omega

theorem hexDigitChar_isHex (d : Nat) (h : d < 16) : isLowerHexDigit (hexDigitChar d) = true := by
  simp only [hexDigitChar, isLowerHexDigit]
  by_cases h10 : d < 10 <;> simp [h10] <;> omega

theorem tokenHex_mem (bytes : List Nat) (hb : ∀ b ∈ bytes, b < 256) :
    ∀ c ∈ tokenHex bytes, isLowerHexDigit c = true := by
  induction bytes with
  | nil => simp [tokenHex]
  | cons b rest ih =>
    intro c hc
    have hb0 : b < 256 := hb b (List.mem_cons_self _ _)
    simp only [tokenHex, List.map_cons, List.flatten_cons, List.mem_append,
      List.mem_cons, List.mem_singleton] at hc
    rcases hc with (rfl | rfl | h) | h
    · exact hexDigitChar_isHex _ (by omega)
    · exact hexDigitChar_isHex _ (by omega)
    · exact absurd h (List.not_mem_nil _)
    · exact ih (fun x hx => hb x (List.mem_cons_of_mem _ hx)) c h

/-- C9: `generate_pass(n)` returns exactly `n` characters drawn from the
declared alphabet — lowercase hex in Variants A and C, ASCII letters and
digits in Variant B — with defaults 16 (A) and 12 (B and C). -/
theorem C9_generate_pass :
    (∀ (n : Nat) (bytes : List Nat), 1 ≤ n → (n + 1) / 2 ≤ bytes.length →
      (∀ b ∈ bytes, b < 256) →
      (generatePassHex bytes n).length = n
        ∧ ∀ c ∈ generatePassHex bytes n, isLowerHexDigit c = true)
    ∧ (∀ (n : Nat) (picks : List Nat), 1 ≤ n → n ≤ picks.length →
      (∀ i ∈ picks, i < 62) →
      (generate_pass_B picks n).length = n
        ∧ ∀ c ∈ generate_pass_B picks n, isAsciiAlnum c = true)
    ∧ (∀ bytes, generate_pass_A bytes = generatePassHex bytes 16)
    ∧ (∀ bytes, generate_pass_C bytes = generatePassHex bytes 12)
    ∧ (∀ picks, generate_pass_B picks
        = (picks.take 12).map (fun i => asciiLettersDigits.getD i 0)) := by
  refine ⟨?_, ?_, fun _ => rfl, fun _ => rfl, fun _ => rfl⟩
  · intro n bytes hn hlen hb
    constructor
    · have h1 : (bytes.take ((n + 1) / 2)).length = (n + 1) / 2 := by
        rw [List.length_take]
        omega
      rw [generatePassHex, List.length_take, tokenHex_length, h1]
      omega
    · intro c hc
      have hc' : c ∈ tokenHex (bytes.take ((n + 1) / 2)) :=
        List.take_subset _ _ hc
      exact tokenHex_mem _ (fun b hb' => hb b (List.take_subset _ _ hb')) c hc'
  · intro n picks hn hlen hp
    constructor
    · simp [generate_pass_B, List.length_take]
      omega
    · intro c hc
      simp only [generate_pass_B, List.mem_map] at hc
      obtain ⟨i, hi, rfl⟩ := hc
      have hi62 : i < 62 := hp i (List.take_subset _ _ hi)
      have hilen : i < asciiLettersDigits.length := by
        have : asciiLettersDigits.length = 62 := by decide
        omega
      have hmem : asciiLettersDigits.getD i 0 ∈ asciiLettersDigits := by
        rw [List.getD_eq_getElem _ _ hilen]
        exact List.getElem_mem hilen
      have hall : ∀ c ∈ asciiLettersDigits, isAsciiAlnum c = true := by decide
      exact hall _ hmem

/-- Witness for C9 at length 4 with concrete entropy. -/
theorem C9_generate_pass_witness :
    ((generatePassHex [0, 255, 171] 4).length = 4
      ∧ ∀ c ∈ generatePassHex [0, 255, 171] 4, isLowerHexDigit c = true)
    ∧ ((generate_pass_B [0, 61, 10, 35] 4).length = 4
      ∧ ∀ c ∈ generate_pass_B [0, 61, 10, 35] 4, isAsciiAlnum c = true) :=
  ⟨C9_generate_pass.1 4 [0, 255, 171] (by decide) (by decide) (by decide),
    C9_generate_pass.2.1 4 [0, 61, 10, 35] (by decide) (by decide) (by decide)⟩

/-! ### C5: shift schedule assignment boundary validation

Modelled from the spec: the `Shift Schedule Assignment` doctype and its
save-time validation live in the HRMS application, outside this repository
excerpt; only the integration test
(src/hrms/.../test_shift_schedule_assignment.py) is present.  The model
follows §4.11 of the spec: dates are day numbers, `create_shifts` generates
shift instances across a range, and saving a modified "create shifts after"
boundary is rejected when it lies strictly before the latest materialized
date. -/

structure ShiftScheduleAssignment where
  employee : Str
  company : Str
  shift_schedule : Str
  shift_status : Str
  create_shifts_after : Int
  materialized : List Int
deriving DecidableEq

/-- The day numbers from `startD` to `endD` inclusive. -/
def dateRange (startD endD : Int) : List Int :=
  (List.range (endD + 1 - startD).toNat).map (fun i => startD + i)

/-- Modelled from the spec: `create_shifts(from, to)` materializes shift
instances across the date range. -/
def createShifts (a : ShiftScheduleAssignment) (startD endD : Int) :
    ShiftScheduleAssignment :=
  { a with materialized := a.materialized ++ dateRange startD endD }

/-- Modelled from the spec: saving an assignment with a modified
"create shifts after" boundary fails with a validation error when the new
boundary is strictly before the latest materialized date, and otherwise
succeeds with the field updated. -/
def saveAssignment (a : ShiftScheduleAssignment) (newBoundary : Int) :
    Except Unit ShiftScheduleAssignment :=
  match a.materialized.max? with
  | some latest =>
    if newBoundary < latest then .error ()
    else .ok { a with create_shifts_after := newBoundary }
  | none => .ok { a with create_shifts_after := newBoundary }

/-- C5: for an assignment with materialized shifts, saving a boundary
strictly before the latest materialized date fails with a validation error;
saving a boundary at or after it succeeds and the field reads back as the
new value. -/
theorem C5_shift_boundary_validation
    (a : ShiftScheduleAssignment) (latest newB : Int)
    (hmax : a.materialized.max? = some latest) :
    (newB < latest → saveAssignment a newB = .error ())
    ∧ (latest ≤ newB →
        saveAssignment a newB = .ok { a with create_shifts_after := newB }
        ∧ ({ a with create_shifts_after := newB }).create_shifts_after = newB) := by
  constructor
  · intro hlt
    simp [saveAssignment, hmax, hlt]
  · intro hle
    have hnlt : ¬newB < latest := not_lt.mpr hle
    simp [saveAssignment, hmax, hnlt]

/-- The test's scenario with `D = 0`: boundary `-10`, shifts materialized
from `-9` through `5`. -/
def testAssignment : ShiftScheduleAssignment :=
  createShifts
    { employee := str2list "test@scheduleassignment.com"
      company := str2list "_Test Company"
      shift_schedule := str2list "Test Schedule Assignment"
      shift_status := str2list "Active"
      create_shifts_after := -10
      materialized := [] } (-9) 5

/-- Witness for C5 on the test scenario: setting the boundary to `D = 0`
(inside the materialized range) fails; after reloading, `D + 6` succeeds and
reads back. -/
theorem C5_shift_boundary_validation_witness :
    saveAssignment testAssignment 0 = .error ()
    ∧ saveAssignment testAssignment 6
        = .ok { testAssignment with create_shifts_after := 6 } :=
  ⟨(C5_shift_boundary_validation testAssignment 5 0 (by decide)).1 (by decide),
    ((C5_shift_boundary_validation testAssignment 5 6 (by decide)).2 (by decide)).1⟩

end HRMS
